import Mathlib

/-!
Shallow embedding of the streaming ingestion/conversion/delivery pipeline of
the Parquet-viewer backend (`app/utils/uploads.py`, `app/utils/streams.py`,
`app/routes/convert.py`, `app/converters/polars_ndjson.py`), together with
theorems settling the frozen claims about it.

Temporary files are modelled as a fresh-name counter plus the multiset of
paths currently on disk; bytes are `Nat`s; Python exceptions become `Except`
values.  Each definition names the Python function it embeds.
-/

/-- Bytes of one streamed chunk. -/
abbrev Chunk := List Nat

/-- Equality on `Except` values is decidable when it is on both components. -/
instance exceptDecidableEq {ε α : Type} [DecidableEq ε] [DecidableEq α] :
    DecidableEq (Except ε α) := fun a b =>
  match a, b with
  | .error x, .error y =>
    if h : x = y then .isTrue (by rw [h]) else .isFalse (by simp [h])
  | .ok x, .ok y =>
    if h : x = y then .isTrue (by rw [h]) else .isFalse (by simp [h])
  | .error _, .ok _ => .isFalse (by simp)
  | .ok _, .error _ => .isFalse (by simp)

/-- A fastapi `HTTPException`: status code plus the structured
`detail = {code, message}` payload. -/
structure ApiError where
  status : Nat
  code : String
  message : String
deriving DecidableEq

/-- A Python exception reaching the conversion pipeline: either a structured
fastapi `HTTPException` or any other exception carrying its `str(exc)` text. -/
inductive PyErr where
  | http (e : ApiError)
  | other (msg : String)
deriving DecidableEq

/-- State of the temporary-file storage: a fresh-name counter (used by
`tempfile.NamedTemporaryFile`) and the multiset of paths currently on disk. -/
structure FS where
  next : Nat
  live : Multiset Nat
deriving DecidableEq

/-- `tempfile.NamedTemporaryFile(delete=False)`: allocates a fresh path and
creates the file. -/
def alloc_temp (fs : FS) : Nat × FS :=
  (fs.next, ⟨fs.next + 1, fs.next ::ₘ fs.live⟩)

/-- `Path.unlink`: removing a missing file raises `FileNotFoundError` unless
`missing_ok` is set. -/
def path_unlink (fs : FS) (p : Nat) (missingOk : Bool) : Except String FS :=
  if p ∈ fs.live then .ok ⟨fs.next, fs.live.erase p⟩
  else if missingOk then .ok fs
  else .error "FileNotFoundError"

/-- `_delete_path` in `app/utils/uploads.py`: `path.unlink(missing_ok=True)`,
which never raises; hence a total function on the storage state. -/
def delete_path (fs : FS) (p : Nat) : FS :=
  ⟨fs.next, fs.live.erase p⟩

/-- `StoredUpload` in `app/utils/uploads.py`: one ingested source persisted
to a temporary file. -/
structure StoredUpload where
  path : Nat
  filename : String
  size : Nat
deriving DecidableEq

/-- `StoredUpload.cleanup`: remove the persisted file if it still exists
(`unlink(missing_ok=True)`). -/
def StoredUpload.cleanup (s : StoredUpload) (fs : FS) : FS :=
  delete_path fs s.path

/-- `cleanup_uploads` in `app/utils/uploads.py`: cleanup each stored upload
in order. -/
def cleanup_uploads (fs : FS) (stored : List StoredUpload) : FS :=
  stored.foldl (fun acc s => s.cleanup acc) fs

/-- `MAX_FILES_PER_REQUEST` in `app/config.py`. -/
def MAX_FILES_PER_REQUEST : Nat := 5

/-- `MAX_FILE_SIZE_BYTES` in `app/config.py` (500 MiB). -/
def MAX_FILE_SIZE_BYTES : Nat := 500 * 1024 * 1024

/-- `STREAM_CHUNK_SIZE` in `app/config.py`. -/
def STREAM_CHUNK_SIZE : Int := 65536

/-- `ALLOWED_REMOTE_SCHEMES` in `app/config.py`. -/
def ALLOWED_REMOTE_SCHEMES : List String := ["http", "https"]

/-- Python's `handle.read(n)` on a binary stream: a negative `n` reads
everything that remains, otherwise up to `n` bytes are returned. -/
def python_read (data : List Nat) (n : Int) : List Nat :=
  if n < 0 then data else data.take n.toNat

/-- The read-until-empty loop of `read_from_binaryio` in
`app/utils/streams.py`, with fuel bounding the iteration count
(`data.length + 1` always suffices: every yielded chunk is nonempty and
consumes part of the data). -/
def read_loop : Nat → List Nat → Int → List Chunk
  | 0, _, _ => []
  | fuel + 1, data, chunkSize =>
    let chunk := python_read data chunkSize
    if chunk.isEmpty then []
    else chunk :: read_loop fuel (data.drop chunk.length) chunkSize

/-- `read_from_binaryio` in `app/utils/streams.py`: yield chunks from a
binary handle until it returns an empty read. -/
def read_from_binaryio (data : List Nat) (chunkSize : Int) : List Chunk :=
  read_loop (data.length + 1) data chunkSize

/-- `make_iterator_from_tempfile` in `app/utils/streams.py`: open the path
and delegate to `read_from_binaryio`. -/
def make_iterator_from_tempfile (fileBytes : List Nat) (chunkSize : Int) : List Chunk :=
  read_from_binaryio fileBytes chunkSize

/-- An incoming `UploadFile`: its (possibly missing) filename and the bytes
that successive `upload.read` calls deliver. -/
structure Upload where
  filename : Option String
  content : List Nat
deriving DecidableEq

/-- The `upload.filename or "upload"` fallback at the top of
`persist_upload` (Python `or` also replaces an empty string). -/
def original_name_of (upload : Upload) : String :=
  match upload.filename with
  | none => "upload"
  | some s => if s = "" then "upload" else s

/-- The 413 message of `persist_upload`. -/
def upload_too_large_message (name : String) (maxBytes : Nat) : String :=
  "File '" ++ name ++ "' exceeds the " ++ toString (maxBytes / (1024 * 1024)) ++ " MB limit."

/-- The 413 message of `persist_url`. -/
def remote_too_large_message (maxBytes : Nat) : String :=
  "Remote file exceeds the " ++ toString (maxBytes / (1024 * 1024)) ++ " MB limit."

/-- The streaming loop shared by `persist_upload` and `persist_url`: read a
chunk, add its length to the running total, stop with `none` (the 413
`HTTPException`) as soon as the total exceeds `maxBytes`, otherwise write the
chunk and continue; `some total` on a normal end of stream.  Fuel bounds the
iterations; `data.length + 1` always suffices. -/
def persist_loop : Nat → List Nat → Int → Nat → Nat → Option Nat
  | 0, _, _, _, total => some total
  | fuel + 1, data, chunkSize, maxBytes, total =>
    let chunk := python_read data chunkSize
    if chunk.isEmpty then some total
    else
      let total2 := total + chunk.length
      if maxBytes < total2 then none
      else persist_loop fuel (data.drop chunk.length) chunkSize maxBytes total2

/-- `persist_upload` in `app/utils/uploads.py`: stream an `UploadFile` into a
fresh temporary file while enforcing the size limit; on the 413 path the
partial temporary file is deleted before the exception propagates. -/
def persist_upload (fs : FS) (upload : Upload) (maxBytes : Nat) (chunkSize : Int) :
    Except ApiError StoredUpload × FS :=
  let originalName := original_name_of upload
  let alloc := alloc_temp fs
  match persist_loop (upload.content.length + 1) upload.content chunkSize maxBytes 0 with
  | none =>
      (.error ⟨413, "file_too_large", upload_too_large_message originalName maxBytes⟩,
        delete_path alloc.2 alloc.1)
  | some total => (.ok ⟨alloc.1, originalName, total⟩, alloc.2)

/-- The loop of `persist_uploads` in `app/utils/uploads.py`: persist each
upload in order with the configured limits; if one fails, all uploads stored
so far in this batch are cleaned up before the error propagates. -/
def persist_uploads_go (fs : FS) (uploads : List Upload) (acc : List StoredUpload) :
    Except ApiError (List StoredUpload) × FS :=
  match uploads with
  | [] => (.ok acc, fs)
  | u :: rest =>
    match persist_upload fs u MAX_FILE_SIZE_BYTES STREAM_CHUNK_SIZE with
    | (.error e, fs1) => (.error e, cleanup_uploads fs1 acc)
    | (.ok s, fs1) => persist_uploads_go fs1 rest (acc ++ [s])

/-- `persist_uploads` in `app/utils/uploads.py`. -/
def persist_uploads (fs : FS) (uploads : List Upload) :
    Except ApiError (List StoredUpload) × FS :=
  persist_uploads_go fs uploads []

/-- Result of `urllib.parse.urlparse` on the URL string, with the raw URL
kept (it appears in error messages). -/
structure Url where
  raw : String
  scheme : String
  path : String
deriving DecidableEq

/-- The httpx response for one remote fetch. -/
structure RemoteResponse where
  status : Nat
  reasonPhrase : String
  contentDisposition : Option String
  body : List Nat
deriving DecidableEq

/-- One remote fetch presented to `persist_url`: the URL and how the network
answers it (an `httpx.RequestError` is modelled as an error string). -/
structure UrlFetch where
  url : Url
  net : Except String RemoteResponse
deriving DecidableEq

/-- Python `str.split` with a one-character separator, on character lists. -/
def split_chars (sep : Char) : List Char → List (List Char)
  | [] => [[]]
  | c :: rest =>
    let r := split_chars sep rest
    if c = sep then [] :: r
    else
      match r with
      | g :: gs => (c :: g) :: gs
      | [] => [[c]]

/-- Python `str.split` with a one-character separator. -/
def split_on_char (s : String) (sep : Char) : List String :=
  (split_chars sep s.data).map String.mk

/-- ASCII case folding of one character, as `str.lower` does it. -/
def ascii_lower_char (c : Char) : Char :=
  if 65 ≤ c.toNat ∧ c.toNat ≤ 90 then Char.ofNat (c.toNat + 32) else c

/-- Python `str.lower` (the schemes and header fragments involved are
ASCII). -/
def ascii_lower (s : String) : String :=
  String.mk (s.data.map ascii_lower_char)

/-- The whitespace characters Python `str.strip` removes. -/
def is_python_space (c : Char) : Bool :=
  c = ' ' || c = '\t' || c = '\n' || c = '\r'

/-- Python `str.strip` with no argument. -/
def python_strip (s : String) : String :=
  String.mk (((s.data.dropWhile is_python_space).reverse.dropWhile
    is_python_space).reverse)

/-- Python `str.startswith`. -/
def starts_with (s pre : String) : Bool :=
  pre.data.isPrefixOf s.data

/-- Value of one hexadecimal digit, as `urllib.parse.unquote` reads it. -/
def hex_digit (c : Char) : Option Nat :=
  if 48 ≤ c.toNat ∧ c.toNat ≤ 57 then some (c.toNat - 48)
  else if 97 ≤ c.toNat ∧ c.toNat ≤ 102 then some (c.toNat - 87)
  else if 65 ≤ c.toNat ∧ c.toNat ≤ 70 then some (c.toNat - 55)
  else none

/-- One piece following a percent sign, as `urllib.parse.unquote` processes
it: decode the two leading hex digits, or keep the percent sign verbatim for
a malformed escape (multibyte UTF-8 recombination is not modelled; single
percent-escaped bytes decode to the character of the same code point). -/
def unquote_piece (piece : String) : String :=
  match piece.data with
  | a :: b :: rest =>
    match hex_digit a, hex_digit b with
    | some hi, some lo => String.mk (Char.ofNat (16 * hi + lo) :: rest)
    | _, _ => "%" ++ piece
  | _ => "%" ++ piece

/-- `urllib.parse.unquote`: split on percent signs and decode each escape. -/
def unquote (s : String) : String :=
  match split_on_char s '%' with
  | [] => ""
  | first :: pieces => first ++ String.join (pieces.map unquote_piece)

/-- The `.name` property of `pathlib.Path`: the last slash-separated segment,
ignoring empty and single-dot segments. -/
def path_base_name (s : String) : String :=
  ((split_on_char s '/').filter (fun seg => seg != "" && seg != ".")).getLastD ""

/-- Python `value.strip` with a double quote argument, as used on the
content-disposition filename. -/
def strip_quotes (s : String) : String :=
  String.mk (((s.data.dropWhile (fun c => c = '"')).reverse.dropWhile
    (fun c => c = '"')).reverse)

/-- The content-disposition scan of `_filename_from_url` in
`app/utils/uploads.py`: first fragment starting with `filename=` whose
unquoted value is nonempty. -/
def cd_filename_of_fragments : List String → Option String
  | [] => none
  | frag :: rest =>
    if starts_with (ascii_lower frag) "filename=" then
      let value := String.intercalate "=" ((split_on_char frag '=').drop 1)
      let fname := strip_quotes value
      if fname = "" then cd_filename_of_fragments rest else some fname
    else cd_filename_of_fragments rest

/-- `_filename_from_url` in `app/utils/uploads.py`: content-disposition
header first, then the last segment of the URL path, then `"download"`. -/
def filename_from_url (url : Url) (contentDisposition : Option String) : String :=
  let fromCd :=
    match contentDisposition with
    | some cd => cd_filename_of_fragments ((split_on_char cd ';').map python_strip)
    | none => none
  match fromCd with
  | some name => name
  | none =>
    let candidate := path_base_name (unquote url.path)
    if candidate = "" then "download" else candidate

/-- Outcome of `persist_url`: the result, the storage state afterwards, and
whether a network connection was attempted (the `httpx` client block was
entered). -/
structure PersistUrlResult where
  result : Except ApiError StoredUpload
  fs : FS
  connectionAttempted : Bool
deriving DecidableEq

/-- `persist_url` in `app/utils/uploads.py`: reject disallowed schemes before
any connection, translate network errors and non-2xx statuses, then stream
the body into a fresh temporary file enforcing the size limit (deleting the
partial file on the 413 path). -/
def persist_url (fs : FS) (fetch : UrlFetch) (maxBytes : Nat) (chunkSize : Int) :
    PersistUrlResult :=
  if ascii_lower fetch.url.scheme ∉ ALLOWED_REMOTE_SCHEMES then
    ⟨.error ⟨400, "invalid_url_scheme", "Only HTTP(S) URLs are allowed."⟩, fs, false⟩
  else
    match fetch.net with
    | .error msg =>
      ⟨.error ⟨400, "download_error",
        "Could not fetch URL " ++ fetch.url.raw ++ ": " ++ msg⟩, fs, true⟩
    | .ok resp =>
      if 400 ≤ resp.status then
        ⟨.error ⟨resp.status, "download_failed",
          "Failed to download URL " ++ fetch.url.raw ++ ": " ++ resp.reasonPhrase⟩,
          fs, true⟩
      else
        let filename := filename_from_url fetch.url resp.contentDisposition
        let alloc := alloc_temp fs
        match persist_loop (resp.body.length + 1) resp.body chunkSize maxBytes 0 with
        | none =>
          ⟨.error ⟨413, "file_too_large", remote_too_large_message maxBytes⟩,
            delete_path alloc.2 alloc.1, true⟩
        | some total => ⟨.ok ⟨alloc.1, filename, total⟩, alloc.2, true⟩

/-- The loop of `persist_urls` in `app/utils/uploads.py`: persist each URL in
order with the configured limits; if one fails, all sources stored so far in
this batch are cleaned up before the error propagates. -/
def persist_urls_go (fs : FS) (urls : List UrlFetch) (acc : List StoredUpload) :
    Except ApiError (List StoredUpload) × FS :=
  match urls with
  | [] => (.ok acc, fs)
  | u :: rest =>
    match persist_url fs u MAX_FILE_SIZE_BYTES STREAM_CHUNK_SIZE with
    | ⟨.error e, fs1, _⟩ => (.error e, cleanup_uploads fs1 acc)
    | ⟨.ok s, fs1, _⟩ => persist_urls_go fs1 rest (acc ++ [s])

/-- `persist_urls` in `app/utils/uploads.py`. -/
def persist_urls (fs : FS) (urls : List UrlFetch) :
    Except ApiError (List StoredUpload) × FS :=
  persist_urls_go fs urls []

/-- `persist_sources` in `app/utils/uploads.py`: enforce the combined count
limits, then persist uploads followed by URLs; the outer handler cleans up
every source already stored in this batch before an error propagates. -/
def persist_sources (fs : FS) (files : List Upload) (urls : List UrlFetch) :
    Except ApiError (List StoredUpload) × FS :=
  let totalCount := files.length + urls.length
  if totalCount = 0 then
    (.error ⟨400, "missing_files", "At least one file or URL must be provided."⟩, fs)
  else if MAX_FILES_PER_REQUEST < totalCount then
    (.error ⟨400, "too_many_files",
      "A maximum of " ++ toString MAX_FILES_PER_REQUEST ++ " items are allowed per request."⟩,
      fs)
  else
    match persist_uploads fs files with
    | (.error e, fs1) => (.error e, cleanup_uploads fs1 [])
    | (.ok storedFiles, fs1) =>
      match persist_urls fs1 urls with
      | (.error e, fs2) => (.error e, cleanup_uploads fs2 storedFiles)
      | (.ok storedUrls, fs2) => (.ok (storedFiles ++ storedUrls), fs2)

/-- `ConversionSpec` in `app/routes/convert.py`: the conversion stream
function (keyed by the stored path, yielding either a call-time exception or
the sequence of pulls, each a chunk or an exception), the response media
type, and the output filename suffix. -/
structure ConversionSpec where
  stream_fn : Nat → Except PyErr (List (Except PyErr Chunk))
  media_type : String
  output_suffix : String

/-- `_conversion_error` in `app/routes/convert.py`. -/
def conversion_error (filename : String) (excMessage : String) : ApiError :=
  ⟨400, "conversion_failed", "Failed to convert " ++ filename ++ ": " ++ excMessage⟩

/-- Stem of a file name: everything before the suffix, where the suffix
starts at the last dot not in first position (pathlib's rule). -/
def path_stem (name : String) : String :=
  let cs := name.data
  match ((List.range cs.length).filter
      (fun i => decide (0 < i) && (cs.get? i == some '.'))).getLast? with
  | some i => String.mk (cs.take i)
  | none => name

/-- `Path(filename).with_suffix(suffix).name` as used for derived output
filenames in `app/routes/convert.py`. -/
def derived_output_name (filename suffix : String) : String :=
  path_stem (path_base_name filename) ++ suffix

/-- The generator tail of `_prefetch_stream` in `app/routes/convert.py`:
pulls after the first re-raise an `HTTPException` unchanged and wrap any
other exception in `_conversion_error`. -/
def wrap_stream_tail (filename : String) : List (Except PyErr Chunk) → List (Except PyErr Chunk) :=
  List.map (fun step =>
    match step with
    | .error (.other msg) => .error (.http (conversion_error filename msg))
    | s => s)

/-- `_prefetch_stream` in `app/routes/convert.py`: call the adapter and pull
the first chunk before any response bytes are committed.  `HTTPException`s
re-raise unchanged; any other exception at call time or on the first pull is
wrapped in `_conversion_error`; an immediately exhausted stream yields an
empty iterator. -/
def prefetch_stream (stored : StoredUpload) (spec : ConversionSpec) :
    Except PyErr (List (Except PyErr Chunk)) :=
  match spec.stream_fn stored.path with
  | .error (.http e) => .error (.http e)
  | .error (.other msg) => .error (.http (conversion_error stored.filename msg))
  | .ok [] => .ok []
  | .ok (.error (.http e) :: _) => .error (.http e)
  | .ok (.error (.other msg) :: _) => .error (.http (conversion_error stored.filename msg))
  | .ok (.ok firstChunk :: rest) => .ok (.ok firstChunk :: wrap_stream_tail stored.filename rest)

/-- The `StreamingResponse` of `_build_single_file_response`: derived
filename, media type, and the pull sequence of the response body. -/
structure SingleFileResponse where
  filename : String
  media_type : String
  steps : List (Except PyErr Chunk)

/-- `_build_single_file_response` in `app/routes/convert.py`: prefetch, and
on failure clean up the stored upload before the error propagates; no body
bytes exist before a response value is returned. -/
def build_single_file_response (fs : FS) (stored : StoredUpload) (spec : ConversionSpec) :
    Except PyErr SingleFileResponse × FS :=
  let filename := derived_output_name stored.filename spec.output_suffix
  match prefetch_stream stored spec with
  | .error e => (.error e, cleanup_uploads fs [stored])
  | .ok steps => (.ok ⟨filename, spec.media_type, steps⟩, fs)

/-- Consuming a pull sequence: the chunks yielded before the stream ends or
raises, and the exception if one was raised. -/
def drain_steps : List (Except PyErr Chunk) → List Chunk × Option PyErr
  | [] => ([], none)
  | .ok c :: rest =>
    let r := drain_steps rest
    (c :: r.1, r.2)
  | .error e :: _ => ([], some e)

/-- Consuming the single-file response body: the wrapping iterator yields the
prefetched stream and its finally-block cleans up the stored upload whether
the stream was drained or aborted. -/
def drain_single_response (fs : FS) (stored : StoredUpload) (resp : SingleFileResponse) :
    (List Chunk × Option PyErr) × FS :=
  (drain_steps resp.steps, cleanup_uploads fs [stored])

/-- The streaming ZIP of `_build_zip_response`: named members in the order
they were added, and the response media type. -/
structure ZipResponse where
  members : List (String × List (Except PyErr Chunk))
  media_type : String

/-- The prefetch loop of `_build_zip_response`: prefetch every stored upload
in batch order, stopping at the first failure. -/
def prefetch_all (spec : ConversionSpec) :
    List StoredUpload → Except PyErr (List (StoredUpload × List (Except PyErr Chunk)))
  | [] => .ok []
  | s :: rest =>
    match prefetch_stream s spec with
    | .error e => .error e
    | .ok steps =>
      match prefetch_all spec rest with
      | .error e => .error e
      | .ok others => .ok ((s, steps) :: others)

/-- `_build_zip_response` in `app/routes/convert.py`: prefetch all sources
(cleaning up the whole batch if any fails), then register each stream as a
member named by the derived output filename, in batch order. -/
def build_zip_response (fs : FS) (storedUploads : List StoredUpload) (spec : ConversionSpec) :
    Except PyErr ZipResponse × FS :=
  match prefetch_all spec storedUploads with
  | .error e => (.error e, cleanup_uploads fs storedUploads)
  | .ok prepared =>
    (.ok ⟨prepared.map (fun p => (derived_output_name p.1.filename spec.output_suffix, p.2)),
      "application/zip"⟩, fs)

/-- The response of `_convert_payload`. -/
inductive ConvertResponse where
  | single (resp : SingleFileResponse)
  | zip (resp : ZipResponse)

/-- The delivery branch of `_convert_payload` in `app/routes/convert.py`: a
batch of exactly one stored upload streams directly, any other length is
bundled into a streaming ZIP (the `len(stored_uploads) == 1` test). -/
def convert_payload_response (fs : FS) (storedUploads : List StoredUpload)
    (spec : ConversionSpec) : Except PyErr ConvertResponse × FS :=
  match storedUploads with
  | [stored] =>
    let r := build_single_file_response fs stored spec
    (r.1.map ConvertResponse.single, r.2)
  | _ =>
    let r := build_zip_response fs storedUploads spec
    (r.1.map ConvertResponse.zip, r.2)

/-- A parsed JSON value, as `json.loads` produces it for an NDJSON line. -/
inductive Json where
  | null
  | bool (b : Bool)
  | num (n : Int)
  | str (s : String)
  | arr (elems : List Json)
  | obj (fields : List (String × Json))

mutual

/-- Python `json.dumps` with `ensure_ascii=False` and the default
separators, which render a list as the elements joined by a comma and a
space (string escaping beyond the quotes is elided). -/
def json_dumps : Json → String
  | .null => "null"
  | .bool true => "true"
  | .bool false => "false"
  | .num n => toString n
  | .str s => "\"" ++ s ++ "\""
  | .arr elems => "[" ++ String.intercalate ", " (json_dumps_list elems) ++ "]"
  | .obj fields => "\x7b" ++ String.intercalate ", " (json_dumps_fields fields) ++ "\x7d"

/-- Serialisations of the elements of a JSON array, in order. -/
def json_dumps_list : List Json → List String
  | [] => []
  | v :: rest => json_dumps v :: json_dumps_list rest

/-- Serialisations of the fields of a JSON object, in order. -/
def json_dumps_fields : List (String × Json) → List String
  | [] => []
  | (k, v) :: rest => ("\"" ++ k ++ "\": " ++ json_dumps v) :: json_dumps_fields rest

end

/-- Python dict insertion: overwrite in place when the key is present,
append otherwise (insertion order preserved). -/
def dict_insert (items : List (String × Json)) (key : String) (value : Json) :
    List (String × Json) :=
  if items.any (fun p => p.1 == key) then
    items.map (fun p => if p.1 == key then (key, value) else p)
  else items ++ [(key, value)]

/-- Python `dict.update`: insert each added pair in order. -/
def dict_update (items : List (String × Json)) (adds : List (String × Json)) :
    List (String × Json) :=
  adds.foldl (fun acc p => dict_insert acc p.1 p.2) items

mutual

/-- Object-nesting depth of a JSON value (lists are serialised by the
flattening, never recursed into). -/
def json_depth : Json → Nat
  | .obj fields => json_fields_depth fields + 1
  | _ => 1

/-- Largest object-nesting depth among the values of an object's fields. -/
def json_fields_depth : List (String × Json) → Nat
  | [] => 0
  | (_, v) :: rest => max (json_depth v) (json_fields_depth rest)

end

/-- The field loop of `_flatten_record` in
`app/converters/polars_ndjson.py`, accumulating into the `items` dict:
nested objects recurse with the dotted key and are merged with
`items.update`, lists are serialised with `json.dumps`, scalars are kept.
The fuel bounds the object-nesting depth the recursion may descend (the
Python recursion has no such bound; any fuel of at least the record's
`json_fields_depth` plus one behaves identically, and `flatten_record`
below always passes enough). -/
def flatten_level : Nat → List (String × Json) → String → List (String × Json) →
    List (String × Json)
  | 0, _, _, items0 => items0
  | fuel + 1, fields, parentKey, items0 =>
    fields.foldl (fun items kv =>
      let newKey := if parentKey = "" then kv.1 else parentKey ++ "." ++ kv.1
      match kv.2 with
      | .obj subFields => dict_update items (flatten_level fuel subFields newKey [])
      | .arr elems => dict_insert items newKey (.str (json_dumps (.arr elems)))
      | scalar => dict_insert items newKey scalar) items0

/-- `_flatten_record` in `app/converters/polars_ndjson.py`, applied to the
fields of one record object. -/
def flatten_record (fields : List (String × Json)) (parentKey : String) :
    List (String × Json) :=
  flatten_level (json_fields_depth fields + 1) fields parentKey []

/-- The header derivation of `_collect_ndjson_rows` in
`app/converters/polars_ndjson.py`: keys of every flattened record, in first
seen order (the `seen` set is exactly membership in `headers`). -/
def collect_headers (flattenedRecords : List (List (String × Json))) : List String :=
  flattenedRecords.foldl
    (fun headers flat =>
      flat.foldl (fun hs p => if p.1 ∈ hs then hs else hs ++ [p.1]) headers)
    []

/-- `flattened.get(key, "")` in `ndjson_to_csv_stream`. -/
def dict_get_default (flat : List (String × Json)) (key : String) : Json :=
  match flat.find? (fun p => p.1 == key) with
  | some p => p.2
  | none => .str ""

/-- How `csv.DictWriter` renders one cell: `str(value)`, with `None`
rendered as the empty string. -/
def csv_cell : Json → String
  | .null => ""
  | .str s => s
  | .num n => toString n
  | .bool true => "True"
  | .bool false => "False"
  | .arr elems => json_dumps (.arr elems)
  | .obj fields => json_dumps (.obj fields)

/-- One CSV data row of `ndjson_to_csv_stream` in
`app/converters/polars_ndjson.py`: for every derived column, the flattened
record's value or the empty string when the column is missing. -/
def csv_row (headers : List String) (flat : List (String × Json)) : List String :=
  headers.map (fun key => csv_cell (dict_get_default flat key))

/-- The fragment occurs contiguously inside the message text. -/
def message_contains (message fragment : String) : Prop :=
  fragment.data <:+: message.data

instance message_contains_decidable (message fragment : String) :
    Decidable (message_contains message fragment) := by
  unfold message_contains
  infer_instance

theorem message_contains_of_data_eq (message a b c : String)
    (h : message.data = a.data ++ b.data ++ c.data) : message_contains message b :=
  ⟨a.data, c.data, h.symm⟩

theorem conversion_error_contains (filename msg : String) :
    message_contains (conversion_error filename msg).message filename
    ∧ message_contains (conversion_error filename msg).message msg := by
  constructor
  · exact message_contains_of_data_eq _ "Failed to convert " filename (": " ++ msg)
      (by simp [conversion_error, String.data_append])
  · exact message_contains_of_data_eq _ ("Failed to convert " ++ filename ++ ": ") msg ""
      (by simp [conversion_error, String.data_append])

/-- C9.  Cleanup of a StoredSource is idempotent: `cleanup` is
`unlink(missing_ok=True)`, which never raises; cleaning an already-removed
location leaves the state unchanged, and a second `cleanup` call on the same
StoredSource (whose path occurs at most once on disk) changes nothing
further. -/
theorem cleanup_idempotent (fs : FS) (s : StoredUpload) :
    path_unlink fs s.path true = .ok (s.cleanup fs)
    ∧ (s.path ∉ fs.live → s.cleanup fs = fs)
    ∧ (fs.live.count s.path ≤ 1 → s.cleanup (s.cleanup fs) = s.cleanup fs) := by
  refine ⟨?_, ?_, ?_⟩
  · unfold path_unlink StoredUpload.cleanup delete_path
    split
    · rfl
    · rename_i h
      rw [Multiset.erase_of_not_mem h]
      rfl
  · intro h
    show (⟨fs.next, fs.live.erase s.path⟩ : FS) = fs
    rw [Multiset.erase_of_not_mem h]
  · intro h
    show (⟨fs.next, (fs.live.erase s.path).erase s.path⟩ : FS) = ⟨fs.next, fs.live.erase s.path⟩
    have hnot : s.path ∉ fs.live.erase s.path := by
      rw [← Multiset.count_eq_zero, Multiset.count_erase_self]
      omega
    rw [Multiset.erase_of_not_mem hnot]

theorem cleanup_idempotent_witness :
    path_unlink ⟨3, {2}⟩ 2 true = .ok (StoredUpload.cleanup ⟨2, "a.csv", 7⟩ ⟨3, {2}⟩)
    ∧ StoredUpload.cleanup ⟨2, "a.csv", 7⟩ (StoredUpload.cleanup ⟨2, "a.csv", 7⟩ ⟨3, {2}⟩)
        = StoredUpload.cleanup ⟨2, "a.csv", 7⟩ ⟨3, {2}⟩
    ∧ StoredUpload.cleanup ⟨2, "a.csv", 7⟩ ⟨3, {5}⟩ = ⟨3, {5}⟩ :=
  ⟨(cleanup_idempotent ⟨3, {2}⟩ ⟨2, "a.csv", 7⟩).1,
    (cleanup_idempotent ⟨3, {2}⟩ ⟨2, "a.csv", 7⟩).2.2 (by decide),
    (cleanup_idempotent ⟨3, {5}⟩ ⟨2, "a.csv", 7⟩).2.1 (by decide)⟩

/-- C3.  `persist_sources` computes `len(files) + len(urls)` and fails with
`missing_files` when the total is zero and with `too_many_files` when it
exceeds `MAX_FILES_PER_REQUEST = 5`; in both cases the storage state is
returned unchanged (no temporary artifact was created). -/
theorem batch_count_limits (fs : FS) (files : List Upload) (urls : List UrlFetch) :
    (files.length + urls.length = 0 →
      persist_sources fs files urls =
        (.error ⟨400, "missing_files", "At least one file or URL must be provided."⟩, fs))
    ∧ (MAX_FILES_PER_REQUEST < files.length + urls.length →
      persist_sources fs files urls =
        (.error ⟨400, "too_many_files", "A maximum of 5 items are allowed per request."⟩, fs)) := by
  constructor
  · intro h
    simp [persist_sources, h]
  · intro h
    unfold persist_sources
    rw [if_neg (by omega), if_pos h]
    rfl

theorem batch_count_limits_witness :
    persist_sources ⟨0, 0⟩ [] [] =
      (.error ⟨400, "missing_files", "At least one file or URL must be provided."⟩, ⟨0, 0⟩)
    ∧ persist_sources ⟨0, 0⟩ (List.replicate 6 ⟨some "a.csv", []⟩) [] =
      (.error ⟨400, "too_many_files", "A maximum of 5 items are allowed per request."⟩, ⟨0, 0⟩) :=
  ⟨(batch_count_limits ⟨0, 0⟩ [] []).1 (by decide),
    (batch_count_limits ⟨0, 0⟩ (List.replicate 6 ⟨some "a.csv", []⟩) []).2 (by decide)⟩

/-- C5.  A URL whose scheme (lowercased) is not in the allow-list
`{http, https}` is rejected with `invalid_url_scheme` before the httpx
client block is entered: no connection is attempted and no temporary
artifact is created. -/
theorem disallowed_scheme_rejected (fs : FS) (fetch : UrlFetch) (maxBytes : Nat)
    (chunkSize : Int) (h : ascii_lower fetch.url.scheme ∉ ALLOWED_REMOTE_SCHEMES) :
    persist_url fs fetch maxBytes chunkSize =
      ⟨.error ⟨400, "invalid_url_scheme", "Only HTTP(S) URLs are allowed."⟩, fs, false⟩ := by
  unfold persist_url
  rw [if_pos h]

theorem disallowed_scheme_rejected_witness :
    persist_url ⟨0, 0⟩ ⟨⟨"ftp://host/file.csv", "ftp", "/file.csv"⟩, .error "unreachable"⟩
        MAX_FILE_SIZE_BYTES STREAM_CHUNK_SIZE =
      ⟨.error ⟨400, "invalid_url_scheme", "Only HTTP(S) URLs are allowed."⟩, ⟨0, 0⟩, false⟩ :=
  disallowed_scheme_rejected ⟨0, 0⟩ _ _ _ (by decide)

/-- C8 (corrected).  The chunked-transfer primitives perform no chunk-size
validation: a zero chunk size makes the first read return the empty chunk,
which is treated as end-of-stream, so the call returns an empty sequence;
a negative chunk size reads the entire remaining content as one chunk.
No `InvalidConfiguration` failure exists on these paths. -/
theorem chunked_transfer_not_validated (data : List Nat) :
    read_from_binaryio data 0 = []
    ∧ (data ≠ [] → read_from_binaryio data (-1) = [data])
    ∧ make_iterator_from_tempfile data 0 = [] := by
  refine ⟨?_, ?_, ?_⟩
  · simp [read_from_binaryio, read_loop, python_read]
  · intro h
    match data, h with
    | a :: l, _ =>
      show read_loop (l.length + 1 + 1) (a :: l) (-1) = [a :: l]
      simp [read_loop, python_read, List.drop_length]
  · simp [make_iterator_from_tempfile, read_from_binaryio, read_loop, python_read]

/-- C8 counterexample: with chunk size zero or negative the primitives
return normally (empty sequence, or the whole content in one chunk) instead
of failing. -/
theorem chunk_size_zero_proceeds :
    read_from_binaryio [1, 2, 3] 0 = []
    ∧ read_from_binaryio [1, 2, 3] (-1) = [[1, 2, 3]]
    ∧ make_iterator_from_tempfile [1, 2, 3] 0 = [] := by
  decide

theorem chunked_transfer_not_validated_witness :
    read_from_binaryio [4, 5] (-1) = [[4, 5]] ∧ read_from_binaryio [4, 5] 0 = [] :=
  ⟨(chunked_transfer_not_validated [4, 5]).2.1 (by decide),
    (chunked_transfer_not_validated [4, 5]).1⟩

theorem persist_loop_exceeds (maxBytes : Nat) (chunkSize : Int) (hcs : 0 < chunkSize) :
    ∀ fuel data total, data.length + 1 ≤ fuel → total ≤ maxBytes →
      maxBytes < total + data.length →
      persist_loop fuel data chunkSize maxBytes total = none := by
  intro fuel
  induction fuel with
  | zero =>
    intro data total hf _ _
    omega
  | succ n ih =>
    intro data total hf hle hgt
    have htn : 0 < chunkSize.toNat := by omega
    have hdata : data.length ≠ 0 := by omega
    have hchunk : python_read data chunkSize = data.take chunkSize.toNat := by
      unfold python_read
      rw [if_neg (by omega)]
    have hcl : (data.take chunkSize.toNat).length = min chunkSize.toNat data.length :=
      List.length_take _ _
    simp only [persist_loop, hchunk]
    split
    · rename_i hempt
      exfalso
      rw [List.isEmpty_iff] at hempt
      rw [hempt] at hcl
      simp at hcl
      omega
    · split
      · rfl
      · rename_i hle2
        apply ih
        · rw [List.length_drop]
          omega
        · omega
        · rw [List.length_drop]
          omega

/-- C2 (corrected).  A source whose streamed byte count exceeds `maxBytes`
aborts the transfer with a 413 `file_too_large` error and deletes the
partial temporary artifact, so the set of files on disk is exactly what it
was before the call.  The upload error message carries the declared name and
the configured limit; the remote error message carries only the limit. -/
theorem oversized_source_rejected :
    (∀ (fs : FS) (u : Upload) (maxBytes : Nat) (chunkSize : Int),
      0 < chunkSize → maxBytes < u.content.length →
      persist_upload fs u maxBytes chunkSize =
        (.error ⟨413, "file_too_large", upload_too_large_message (original_name_of u) maxBytes⟩,
          ⟨fs.next + 1, fs.live⟩)
      ∧ message_contains (upload_too_large_message (original_name_of u) maxBytes)
          (original_name_of u)
      ∧ message_contains (upload_too_large_message (original_name_of u) maxBytes)
          (toString (maxBytes / (1024 * 1024))))
    ∧ (∀ (fs : FS) (fetch : UrlFetch) (resp : RemoteResponse) (maxBytes : Nat) (chunkSize : Int),
      ascii_lower fetch.url.scheme ∈ ALLOWED_REMOTE_SCHEMES → fetch.net = .ok resp →
      resp.status < 400 → 0 < chunkSize → maxBytes < resp.body.length →
      persist_url fs fetch maxBytes chunkSize =
        ⟨.error ⟨413, "file_too_large", remote_too_large_message maxBytes⟩,
          ⟨fs.next + 1, fs.live⟩, true⟩
      ∧ message_contains (remote_too_large_message maxBytes)
          (toString (maxBytes / (1024 * 1024)))) := by
  constructor
  · intro fs u maxBytes chunkSize hcs hlen
    have hloop := persist_loop_exceeds maxBytes chunkSize hcs (u.content.length + 1)
      u.content 0 (le_refl _) (by omega) (by omega)
    refine ⟨?_, ?_, ?_⟩
    · simp only [persist_upload, hloop]
      simp [alloc_temp, delete_path, Multiset.erase_cons_head]
    · exact message_contains_of_data_eq _ "File '" (original_name_of u)
        ("' exceeds the " ++ toString (maxBytes / (1024 * 1024)) ++ " MB limit.")
        (by simp [upload_too_large_message, String.data_append])
    · exact message_contains_of_data_eq _
        ("File '" ++ original_name_of u ++ "' exceeds the ")
        (toString (maxBytes / (1024 * 1024))) " MB limit."
        (by simp [upload_too_large_message, String.data_append])
  · intro fs fetch resp maxBytes chunkSize hscheme hnet hstat hcs hlen
    have hloop := persist_loop_exceeds maxBytes chunkSize hcs (resp.body.length + 1)
      resp.body 0 (le_refl _) (by omega) (by omega)
    constructor
    · unfold persist_url
      rw [if_neg (not_not_intro hscheme), hnet]
      simp only [hloop]
      rw [if_neg (by omega)]
      simp [alloc_temp, delete_path, Multiset.erase_cons_head]
    · exact message_contains_of_data_eq _ "Remote file exceeds the "
        (toString (maxBytes / (1024 * 1024))) " MB limit."
        (by simp [remote_too_large_message, String.data_append])

/-- C2 counterexample: for a remote source (declared name `data.csv`,
derived from the URL path) whose size exceeds the limit, the 413 error
message does not contain the declared name. -/
theorem remote_size_error_omits_declared_name :
    (persist_url ⟨0, 0⟩ ⟨⟨"https://example.com/data.csv", "https", "/data.csv"⟩,
        .ok ⟨200, "OK", none, [0, 0]⟩⟩ 1 1).result =
      .error ⟨413, "file_too_large", "Remote file exceeds the 0 MB limit."⟩
    ∧ filename_from_url ⟨"https://example.com/data.csv", "https", "/data.csv"⟩ none = "data.csv"
    ∧ ¬ message_contains "Remote file exceeds the 0 MB limit." "data.csv" := by
  decide

theorem oversized_source_rejected_witness :
    persist_upload ⟨0, 0⟩ ⟨some "big.csv", [9, 9]⟩ 1 1 =
      (.error ⟨413, "file_too_large", "File 'big.csv' exceeds the 0 MB limit."⟩, ⟨1, 0⟩)
    ∧ persist_url ⟨0, 0⟩ ⟨⟨"https://example.com/big.csv", "https", "/big.csv"⟩,
        .ok ⟨200, "OK", none, [7, 7, 7]⟩⟩ 1 2 =
      ⟨.error ⟨413, "file_too_large", "Remote file exceeds the 0 MB limit."⟩, ⟨1, 0⟩, true⟩ := by
  constructor
  · have h := (oversized_source_rejected.1 ⟨0, 0⟩ ⟨some "big.csv", [9, 9]⟩ 1 1
      (by decide) (by decide)).1
    rw [h]
    decide
  · have h := (oversized_source_rejected.2 ⟨0, 0⟩
      ⟨⟨"https://example.com/big.csv", "https", "/big.csv"⟩, .ok ⟨200, "OK", none, [7, 7, 7]⟩⟩
      ⟨200, "OK", none, [7, 7, 7]⟩ 1 2 (by decide) rfl (by decide) (by decide) (by decide)).1
    rw [h]
    decide

theorem persist_upload_error_live {fs : FS} {u : Upload} {mb : Nat} {cs : Int}
    {out : Except ApiError StoredUpload × FS} (h : persist_upload fs u mb cs = out)
    (he : ∃ e, out.1 = .error e) : out.2.live = fs.live := by
  unfold persist_upload at h
  split at h
  · subst h
    simp [alloc_temp, delete_path, Multiset.erase_cons_head]
  · subst h
    obtain ⟨e, he⟩ := he
    simp at he

theorem persist_upload_ok_live {fs : FS} {u : Upload} {mb : Nat} {cs : Int}
    {out : Except ApiError StoredUpload × FS} {s : StoredUpload}
    (h : persist_upload fs u mb cs = out) (hs : out.1 = .ok s) :
    out.2.live = s.path ::ₘ fs.live := by
  unfold persist_upload at h
  split at h
  · subst h
    simp at hs
  · subst h
    simp only [Except.ok.injEq] at hs
    subst hs
    simp [alloc_temp]

theorem persist_url_error_live {fs : FS} {f : UrlFetch} {mb : Nat} {cs : Int}
    {out : PersistUrlResult} (h : persist_url fs f mb cs = out)
    (he : ∃ e, out.result = .error e) : out.fs.live = fs.live := by
  unfold persist_url at h
  split at h
  · subst h
    rfl
  · split at h
    · subst h
      rfl
    · split at h
      · subst h
        rfl
      · split at h
        · subst h
          simp [alloc_temp, delete_path, Multiset.erase_cons_head]
        · subst h
          obtain ⟨e, he⟩ := he
          simp at he

theorem persist_url_ok_live {fs : FS} {f : UrlFetch} {mb : Nat} {cs : Int}
    {out : PersistUrlResult} {s : StoredUpload}
    (h : persist_url fs f mb cs = out) (hs : out.result = .ok s) :
    out.fs.live = s.path ::ₘ fs.live := by
  unfold persist_url at h
  split at h
  · subst h
    simp at hs
  · split at h
    · subst h
      simp at hs
    · split at h
      · subst h
        simp at hs
      · split at h
        · subst h
          simp at hs
        · subst h
          simp only [Except.ok.injEq] at hs
          subst hs
          simp [alloc_temp]

theorem cleanup_uploads_cancels :
    ∀ (acc : List StoredUpload) (fs : FS) (L : Multiset Nat),
      fs.live = ↑(acc.map StoredUpload.path) + L →
      (cleanup_uploads fs acc).live = L := by
  intro acc
  induction acc with
  | nil =>
    intro fs L hL
    simpa [cleanup_uploads] using hL
  | cons a rest ih =>
    intro fs L hL
    show (cleanup_uploads (a.cleanup fs) rest).live = L
    apply ih
    show (fs.live.erase a.path) = ↑(rest.map StoredUpload.path) + L
    rw [hL]
    simp only [List.map_cons]
    rw [← Multiset.cons_coe, Multiset.cons_add, Multiset.erase_cons_head]

theorem persist_uploads_go_live (uploads : List Upload) :
    ∀ (fs : FS) (acc : List StoredUpload) (out : Except ApiError (List StoredUpload) × FS),
      persist_uploads_go fs uploads acc = out →
      ∀ L, fs.live = ↑(acc.map StoredUpload.path) + L →
      ((∃ e, out.1 = .error e) → out.2.live = L)
      ∧ (∀ res, out.1 = .ok res → out.2.live = ↑(res.map StoredUpload.path) + L) := by
  induction uploads with
  | nil =>
    intro fs acc out h L hL
    unfold persist_uploads_go at h
    subst h
    constructor
    · rintro ⟨e, he⟩
      simp at he
    · intro res hres
      simp only [Except.ok.injEq] at hres
      subst hres
      exact hL
  | cons u rest ih =>
    intro fs acc out h L hL
    unfold persist_uploads_go at h
    cases hp : persist_upload fs u MAX_FILE_SIZE_BYTES STREAM_CHUNK_SIZE with
    | mk r1 fs1 =>
      rw [hp] at h
      cases r1 with
      | error e1 =>
        subst h
        constructor
        · intro _
          apply cleanup_uploads_cancels acc fs1 L
          rw [persist_upload_error_live hp ⟨e1, rfl⟩]
          exact hL
        · intro res hres
          simp at hres
      | ok s =>
        apply ih fs1 (acc ++ [s]) out h L
        rw [persist_upload_ok_live hp rfl, hL]
        simp only [List.map_append, List.map_cons, List.map_nil, ← Multiset.coe_add,
          Multiset.coe_singleton, ← Multiset.singleton_add]
        simp [add_comm, add_left_comm, add_assoc]

theorem persist_urls_go_live (urls : List UrlFetch) :
    ∀ (fs : FS) (acc : List StoredUpload) (out : Except ApiError (List StoredUpload) × FS),
      persist_urls_go fs urls acc = out →
      ∀ L, fs.live = ↑(acc.map StoredUpload.path) + L →
      ((∃ e, out.1 = .error e) → out.2.live = L)
      ∧ (∀ res, out.1 = .ok res → out.2.live = ↑(res.map StoredUpload.path) + L) := by
  induction urls with
  | nil =>
    intro fs acc out h L hL
    unfold persist_urls_go at h
    subst h
    constructor
    · rintro ⟨e, he⟩
      simp at he
    · intro res hres
      simp only [Except.ok.injEq] at hres
      subst hres
      exact hL
  | cons f rest ih =>
    intro fs acc out h L hL
    unfold persist_urls_go at h
    cases hp : persist_url fs f MAX_FILE_SIZE_BYTES STREAM_CHUNK_SIZE with
    | mk r1 fs1 att =>
      rw [hp] at h
      cases r1 with
      | error e1 =>
        subst h
        constructor
        · intro _
          apply cleanup_uploads_cancels acc fs1 L
          rw [persist_url_error_live hp ⟨e1, rfl⟩]
          exact hL
        · intro res hres
          simp at hres
      | ok s =>
        apply ih fs1 (acc ++ [s]) out h L
        rw [persist_url_ok_live hp rfl, hL]
        simp only [List.map_append, List.map_cons, List.map_nil, ← Multiset.coe_add,
          Multiset.coe_singleton, ← Multiset.singleton_add]
        simp [add_comm, add_left_comm, add_assoc]

/-- C4.  Whenever `persist_sources` propagates an error, every temporary
file materialized during the call (for uploads and URLs alike) has been
cleaned up again: the multiset of files on disk is exactly what it was
before the call, whichever source failed and however many sources had
already been stored. -/
theorem partial_batch_failure_cleans_up (fs : FS) (files : List Upload)
    (urls : List UrlFetch) (e : ApiError) (fs2 : FS)
    (h : persist_sources fs files urls = (.error e, fs2)) : fs2.live = fs.live := by
  simp only [persist_sources] at h
  by_cases h0 : files.length + urls.length = 0
  · rw [if_pos h0] at h
    simp only [Prod.mk.injEq] at h
    rw [← h.2]
  · rw [if_neg h0] at h
    by_cases h5 : MAX_FILES_PER_REQUEST < files.length + urls.length
    · rw [if_pos h5] at h
      simp only [Prod.mk.injEq] at h
      rw [← h.2]
    · rw [if_neg h5] at h
      cases hu : persist_uploads fs files with
      | mk r1 fs1 =>
        rw [hu] at h
        cases r1 with
        | error e1 =>
          simp only [Prod.mk.injEq] at h
          rw [← h.2]
          show (cleanup_uploads fs1 []).live = fs.live
          exact (persist_uploads_go_live files fs [] _ hu fs.live (by simp)).1 ⟨e1, rfl⟩
        | ok storedFiles =>
          dsimp only at h
          cases hurl : persist_urls fs1 urls with
          | mk r2 fs3 =>
            rw [hurl] at h
            cases r2 with
            | error e2 =>
              simp only [Prod.mk.injEq] at h
              rw [← h.2]
              apply cleanup_uploads_cancels storedFiles fs3 fs.live
              rw [(persist_urls_go_live urls fs1 [] _ hurl fs1.live (by simp)).1 ⟨e2, rfl⟩]
              exact (persist_uploads_go_live files fs [] _ hu fs.live (by simp)).2
                storedFiles rfl
            | ok storedUrls =>
              simp at h

theorem partial_batch_failure_cleans_up_witness :
    persist_sources ⟨0, 0⟩ [⟨some "a.csv", [1, 2, 3]⟩]
        [⟨⟨"ftp://h/x", "ftp", "/x"⟩, .error "nope"⟩] =
      (.error ⟨400, "invalid_url_scheme", "Only HTTP(S) URLs are allowed."⟩, ⟨1, 0⟩)
    ∧ (⟨1, 0⟩ : FS).live = (⟨0, 0⟩ : FS).live :=
  ⟨by decide,
    partial_batch_failure_cleans_up ⟨0, 0⟩ [⟨some "a.csv", [1, 2, 3]⟩]
      [⟨⟨"ftp://h/x", "ftp", "/x"⟩, .error "nope"⟩]
      ⟨400, "invalid_url_scheme", "Only HTTP(S) URLs are allowed."⟩ ⟨1, 0⟩ (by decide)⟩

/-- C1 (corrected).  When the conversion adapter raises an exception other
than a fastapi `HTTPException` at call time or on pulling the first element,
the single-file assembler fails (so no response, hence no body bytes, is
produced) with an HTTP 400 `conversion_failed` error whose message contains
the declared filename and the underlying error text, and the stored
upload's temporary file is removed.  An `HTTPException` raised by the
adapter instead propagates unchanged — see the counterexample. -/
theorem conversion_failure_translated (fs : FS) (stored : StoredUpload)
    (spec : ConversionSpec) (msg : String)
    (h : spec.stream_fn stored.path = .error (.other msg) ∨
      ∃ rest, spec.stream_fn stored.path = .ok (.error (.other msg) :: rest)) :
    build_single_file_response fs stored spec =
      (.error (.http (conversion_error stored.filename msg)), delete_path fs stored.path)
    ∧ (conversion_error stored.filename msg).status = 400
    ∧ (conversion_error stored.filename msg).code = "conversion_failed"
    ∧ message_contains (conversion_error stored.filename msg).message stored.filename
    ∧ message_contains (conversion_error stored.filename msg).message msg
    ∧ (fs.live.count stored.path ≤ 1 → stored.path ∉ (delete_path fs stored.path).live) := by
  have hpre : prefetch_stream stored spec =
      .error (.http (conversion_error stored.filename msg)) := by
    rcases h with h | ⟨rest, h⟩
    · unfold prefetch_stream
      rw [h]
    · unfold prefetch_stream
      rw [h]
  refine ⟨?_, rfl, rfl, (conversion_error_contains _ _).1,
    (conversion_error_contains _ _).2, ?_⟩
  · unfold build_single_file_response
    rw [hpre]
    rfl
  · intro hc
    show stored.path ∉ fs.live.erase stored.path
    rw [← Multiset.count_eq_zero, Multiset.count_erase_self]
    omega

/-- C1 counterexample: an adapter that raises a fastapi `HTTPException` on
first-chunk access (as the repository's NDJSON converter does for invalid
input) has its error re-raised unchanged by the assembler — the error code
stays `invalid_ndjson` rather than `conversion_failed` and the message does
not mention the declared filename. -/
theorem http_error_not_translated :
    (build_single_file_response ⟨1, {0}⟩ ⟨0, "data.ndjson", 9⟩
        ⟨fun _ => .ok [.error (.http ⟨400, "invalid_ndjson", "Line 1 is not valid JSON"⟩)],
          "text/csv", ".csv"⟩).1 =
      .error (.http ⟨400, "invalid_ndjson", "Line 1 is not valid JSON"⟩)
    ∧ ¬ message_contains "Line 1 is not valid JSON" "data.ndjson" := by
  constructor
  · rfl
  · decide

theorem conversion_failure_translated_witness :
    build_single_file_response ⟨1, {0}⟩ ⟨0, "a.parquet", 3⟩
        ⟨fun _ => .error (.other "boom"), "text/csv", ".csv"⟩ =
      (.error (.http (conversion_error "a.parquet" "boom")), delete_path ⟨1, {0}⟩ 0)
    ∧ message_contains (conversion_error "a.parquet" "boom").message "a.parquet"
    ∧ message_contains (conversion_error "a.parquet" "boom").message "boom"
    ∧ (0 : Nat) ∉ (delete_path ⟨1, {0}⟩ 0).live := by
  have h := conversion_failure_translated ⟨1, {0}⟩ ⟨0, "a.parquet", 3⟩
    ⟨fun _ => .error (.other "boom"), "text/csv", ".csv"⟩ "boom" (Or.inl rfl)
  exact ⟨h.1, h.2.2.2.1, h.2.2.2.2.1, h.2.2.2.2.2 (by decide)⟩

/-- C10.  An adapter whose output is exhausted on the first pull is not a
conversion failure: the prefetch returns an empty iterator, the single-file
response is built successfully with an empty body, and draining the
response still cleans up the stored upload's temporary file. -/
theorem empty_conversion_stream_succeeds (fs : FS) (stored : StoredUpload)
    (spec : ConversionSpec) (h : spec.stream_fn stored.path = .ok []) :
    build_single_file_response fs stored spec =
      (.ok ⟨derived_output_name stored.filename spec.output_suffix, spec.media_type, []⟩, fs)
    ∧ drain_single_response fs stored
        ⟨derived_output_name stored.filename spec.output_suffix, spec.media_type, []⟩ =
      (([], none), delete_path fs stored.path)
    ∧ (fs.live.count stored.path ≤ 1 → stored.path ∉ (delete_path fs stored.path).live) := by
  have hpre : prefetch_stream stored spec = .ok [] := by
    unfold prefetch_stream
    rw [h]
  refine ⟨?_, rfl, ?_⟩
  · unfold build_single_file_response
    rw [hpre]
  · intro hc
    show stored.path ∉ fs.live.erase stored.path
    rw [← Multiset.count_eq_zero, Multiset.count_erase_self]
    omega

theorem empty_conversion_stream_succeeds_witness :
    build_single_file_response ⟨1, {0}⟩ ⟨0, "rows.ndjson", 0⟩
        ⟨fun _ => .ok [], "text/csv", ".csv"⟩ =
      (.ok ⟨"rows.csv", "text/csv", []⟩, ⟨1, {0}⟩)
    ∧ drain_single_response ⟨1, {0}⟩ ⟨0, "rows.ndjson", 0⟩ ⟨"rows.csv", "text/csv", []⟩ =
      (([], none), ⟨1, 0⟩)
    ∧ (0 : Nat) ∉ (delete_path ⟨1, {0}⟩ 0).live := by
  have h := empty_conversion_stream_succeeds ⟨1, {0}⟩ ⟨0, "rows.ndjson", 0⟩
    ⟨fun _ => .ok [], "text/csv", ".csv"⟩ rfl
  refine ⟨?_, ?_, h.2.2 (by decide)⟩
  · rw [h.1]
    rfl
  · have h2 := h.2.1
    rw [show derived_output_name "rows.ndjson" ".csv" = "rows.csv" from rfl] at h2
    rw [h2]
    rfl

theorem wrap_stream_tail_ok (filename : String) (chunks : List Chunk) :
    wrap_stream_tail filename (chunks.map Except.ok) = chunks.map Except.ok := by
  induction chunks with
  | nil => rfl
  | cons c cs ih => exact congrArg (fun l => Except.ok c :: l) ih

theorem prefetch_stream_all_ok (stored : StoredUpload) (spec : ConversionSpec)
    (chunks : List Chunk) (h : spec.stream_fn stored.path = .ok (chunks.map Except.ok)) :
    prefetch_stream stored spec = .ok (chunks.map Except.ok) := by
  cases chunks with
  | nil =>
    unfold prefetch_stream
    rw [h]
    rfl
  | cons c cs =>
    unfold prefetch_stream
    rw [h]
    show Except.ok (Except.ok c :: wrap_stream_tail stored.filename (cs.map Except.ok))
      = Except.ok (List.map Except.ok (c :: cs))
    rw [wrap_stream_tail_ok]
    rfl

theorem drain_steps_ok (chunks : List Chunk) :
    drain_steps (chunks.map Except.ok) = (chunks, none) := by
  induction chunks with
  | nil => rfl
  | cons c cs ih => simp [drain_steps, ih]

theorem prefetch_all_ok (spec : ConversionSpec) :
    ∀ storeds : List StoredUpload,
      (∀ s ∈ storeds, ∃ chunks : List Chunk,
        spec.stream_fn s.path = .ok (chunks.map Except.ok)) →
      ∃ prepared, prefetch_all spec storeds = .ok prepared
        ∧ prepared.map Prod.fst = storeds := by
  intro storeds
  induction storeds with
  | nil =>
    intro _
    exact ⟨[], rfl, rfl⟩
  | cons s rest ih =>
    intro hall
    obtain ⟨chunks, hs⟩ := hall s (by simp)
    obtain ⟨prepared, hp, hmap⟩ := ih (fun t ht => hall t (by simp [ht]))
    refine ⟨(s, chunks.map Except.ok) :: prepared, ?_, ?_⟩
    · unfold prefetch_all
      rw [prefetch_stream_all_ok s spec chunks hs, hp]
    · simp [hmap]

/-- C6.  For a successfully acquired batch with every prefetch succeeding:
a batch of exactly one stored upload is streamed directly with the spec's
media type, the declared name with its suffix swapped for the spec's output
suffix, and exactly the adapter's chunk sequence as body; a batch of more
than one becomes a streaming ZIP (`application/zip`) whose member names are
exactly the per-source derived output filenames, in batch order. -/
theorem assembler_single_vs_zip :
    (∀ (fs : FS) (stored : StoredUpload) (spec : ConversionSpec) (chunks : List Chunk),
      spec.stream_fn stored.path = .ok (chunks.map Except.ok) →
      convert_payload_response fs [stored] spec =
        (.ok (.single ⟨derived_output_name stored.filename spec.output_suffix,
          spec.media_type, chunks.map Except.ok⟩), fs)
      ∧ drain_steps (chunks.map Except.ok) = (chunks, none))
    ∧ (∀ (fs : FS) (storeds : List StoredUpload) (spec : ConversionSpec),
      2 ≤ storeds.length →
      (∀ s ∈ storeds, ∃ chunks : List Chunk,
        spec.stream_fn s.path = .ok (chunks.map Except.ok)) →
      (convert_payload_response fs storeds spec).2 = fs
      ∧ ∃ r : ZipResponse, (convert_payload_response fs storeds spec).1 = .ok (.zip r)
        ∧ r.media_type = "application/zip"
        ∧ r.members.map Prod.fst =
            storeds.map (fun s => derived_output_name s.filename spec.output_suffix)) := by
  constructor
  · intro fs stored spec chunks h
    have hpre := prefetch_stream_all_ok stored spec chunks h
    have hb : build_single_file_response fs stored spec =
        (.ok ⟨derived_output_name stored.filename spec.output_suffix, spec.media_type,
          chunks.map Except.ok⟩, fs) := by
      unfold build_single_file_response
      rw [hpre]
    have hc1 : convert_payload_response fs [stored] spec =
        ((build_single_file_response fs stored spec).1.map ConvertResponse.single,
          (build_single_file_response fs stored spec).2) := rfl
    constructor
    · rw [hc1, hb]
      rfl
    · exact drain_steps_ok chunks
  · intro fs storeds spec h2 hall
    rcases storeds with _ | ⟨s1, storeds1⟩
    · simp at h2
    rcases storeds1 with _ | ⟨s2, rest⟩
    · simp at h2
    obtain ⟨prepared, hp, hmap⟩ := prefetch_all_ok spec _ hall
    have hb : build_zip_response fs (s1 :: s2 :: rest) spec =
        (.ok ⟨prepared.map
            (fun p => (derived_output_name p.1.filename spec.output_suffix, p.2)),
          "application/zip"⟩, fs) := by
      unfold build_zip_response
      rw [hp]
    have hc : convert_payload_response fs (s1 :: s2 :: rest) spec =
        ((build_zip_response fs (s1 :: s2 :: rest) spec).1.map ConvertResponse.zip,
          (build_zip_response fs (s1 :: s2 :: rest) spec).2) := rfl
    constructor
    · rw [hc, hb]
    · refine ⟨⟨prepared.map
          (fun p => (derived_output_name p.1.filename spec.output_suffix, p.2)),
          "application/zip"⟩, ?_, rfl, ?_⟩
      · rw [hc, hb]
        rfl
      · show (prepared.map
            (fun p => (derived_output_name p.1.filename spec.output_suffix, p.2))).map
              Prod.fst = _
        rw [List.map_map]
        have hcomp : (Prod.fst ∘ fun p : StoredUpload × List (Except PyErr Chunk) =>
            (derived_output_name p.1.filename spec.output_suffix, p.2)) =
            (fun s => derived_output_name s.filename spec.output_suffix) ∘ Prod.fst := rfl
        rw [hcomp, ← List.map_map, hmap]

theorem assembler_single_vs_zip_witness :
    convert_payload_response ⟨1, {0}⟩ [⟨0, "report.parquet", 5⟩]
        ⟨fun _ => .ok [Except.ok [65]], "text/csv", ".csv"⟩ =
      (.ok (.single ⟨"report.csv", "text/csv", [Except.ok [65]]⟩), ⟨1, {0}⟩)
    ∧ ∃ r : ZipResponse,
        (convert_payload_response ⟨2, {0, 1}⟩ [⟨0, "alpha.csv", 1⟩, ⟨1, "beta.csv", 1⟩]
          ⟨fun p => .ok [Except.ok [p + 65]], "application/x-ndjson", ".ndjson"⟩).1 =
          .ok (.zip r)
        ∧ r.members.map Prod.fst = ["alpha.ndjson", "beta.ndjson"] := by
  constructor
  · have h := (assembler_single_vs_zip.1 ⟨1, {0}⟩ ⟨0, "report.parquet", 5⟩
      ⟨fun _ => .ok [Except.ok [65]], "text/csv", ".csv"⟩ [[65]] rfl).1
    rw [h]
    rfl
  · obtain ⟨-, r, hr, -, hm⟩ := assembler_single_vs_zip.2 ⟨2, {0, 1}⟩
      [⟨0, "alpha.csv", 1⟩, ⟨1, "beta.csv", 1⟩]
      ⟨fun p => .ok [Except.ok [p + 65]], "application/x-ndjson", ".ndjson"⟩
      (by decide) (fun s _ => ⟨[[s.path + 65]], rfl⟩)
    refine ⟨r, hr, ?_⟩
    rw [hm]
    rfl

/-- C7.  NDJSON flattening on the spec's example: nested records flatten to
dotted-path columns with list values serialised as the literal JSON text;
the column set is the first-seen-order union of all flattened keys; a record
missing a column yields an empty cell (which holds for every record and
key, last conjunct); and the `values` cells are the empty string for row 2
and the literal text `[1, 2]` for row 1. -/
theorem ndjson_flattening_columns :
    flatten_record [("meta", Json.obj [("id", Json.num 1)]),
        ("values", Json.arr [Json.num 1, Json.num 2]), ("status", Json.str "ok")] "" =
      [("meta.id", Json.num 1), ("values", Json.str "[1, 2]"), ("status", Json.str "ok")]
    ∧ collect_headers
        [flatten_record [("meta", Json.obj [("id", Json.num 1)]),
          ("values", Json.arr [Json.num 1, Json.num 2]), ("status", Json.str "ok")] "",
         flatten_record [("meta", Json.obj [("id", Json.num 2)]),
          ("status", Json.str "pending")] ""] = ["meta.id", "values", "status"]
    ∧ csv_row ["meta.id", "values", "status"]
        (flatten_record [("meta", Json.obj [("id", Json.num 2)]),
          ("status", Json.str "pending")] "") = ["2", "", "pending"]
    ∧ csv_cell (dict_get_default
        (flatten_record [("meta", Json.obj [("id", Json.num 1)]),
          ("values", Json.arr [Json.num 1, Json.num 2]), ("status", Json.str "ok")] "")
        "values") = "[1, 2]"
    ∧ (∀ (flat : List (String × Json)) (key : String),
        (∀ p ∈ flat, p.1 ≠ key) → csv_cell (dict_get_default flat key) = "") := by
  refine ⟨rfl, by decide, by decide, rfl, ?_⟩
  intro flat key hk
  have hfind : flat.find? (fun p => p.1 == key) = none := by
    rw [List.find?_eq_none]
    intro p hp
    simpa using hk p hp
  simp [dict_get_default, hfind, csv_cell]

theorem ndjson_flattening_columns_witness :
    csv_cell (dict_get_default [("a", Json.num 1)] "missing") = "" :=
  ndjson_flattening_columns.2.2.2.2 [("a", Json.num 1)] "missing" (by decide)
